import Mathlib

/-!
Verification development for the `seamless` JSON-over-HTTP RPC library.

The definitions below are a shallow embedding of the Rust sources:
  * `seamless/src/api/api.rs` (route registry, dispatch, introspection),
  * `seamless/src/api/error.rs` (the `ApiError` record),
  * `seamless/src/handler/handler.rs` (handler resolution pipeline),
  * `seamless/src/handler/param.rs` (parameter extractors),
  * `seamless/src/handler/body.rs` (body extractors),
  * `seamless/src/handler/request.rs` (the capped reader),
  * `seamless-macros/src/error/attrs.rs` and `error/mod.rs` (error classification),
  * `seamless-macros/src/body/mod.rs` (schema derivation for unions).

Rust `HashMap`s are modelled as association lists carrying the map's
iteration order; machine integers are modelled as `Nat`; fallible code
returns `Except`; the asynchronous extractors are modelled as pure
functions from the request (each `.await` point is sequential and
deterministic within one request, so the suspension structure is
irrelevant to the claims).
-/

namespace Seamless

/-- HTTP method, from `http::Method` as used by the registry.  Only `GET` and
`POST` are produced by the library itself; other methods are carried opaquely. -/
inductive Method where
  | GET
  | POST
  | other (name : String)
deriving DecidableEq, Repr

/-- `format!` rendering of a method, used by `Api::info` (`api.rs` line 117). -/
def Method.render : Method → String
  | .GET => "GET"
  | .POST => "POST"
  | .other n => n

/-- The `ApiError` record from `seamless/src/api/error.rs`.  `code` is the
`u16` HTTP status (claims only exercise in-range values, so `Nat` is used);
`value` is an opaque optional JSON context, modelled as an optional string
since `serde_json::Value` is an external black box. -/
structure ApiError where
  code : Nat
  internal_message : String
  external_message : String
  value : Option String
deriving DecidableEq, Repr

/-- `ApiError::SERVER_ERROR` from `error.rs`. -/
def ApiError.SERVER_ERROR : String := "Internal server error"

/-! ## Error classification (`seamless-macros/src/error`)

`ApiErrorAttrs` holds the attribute tokens collected by
`ApiErrorAttrs::parse`.  In the Rust source the `_tok` fields are
`Option<syn::Path>` whose payload is only a source span; the payload is
modelled as `Unit` so that `.unwrap()` on a `None` (a panic) is still
observable. -/

/-- Collected `#[api_error(..)]` attributes, from `error/attrs.rs`. -/
structure ApiErrorAttrs where
  external_tok : Option Unit
  internal_tok : Option Unit
  inner_tok : Option Unit
  external_message : Option String
  code : Option Nat
deriving DecidableEq, Repr

/-- Result of finalising the attributes, from `error/attrs.rs`. -/
structure FinalApiErrorAttrs where
  external_message : Option String
  code : Nat
  delegate_to_child : Bool
deriving DecidableEq, Repr

/-- Outcome of running a piece of the procedural macro: a value, a returned
`syn::Error` diagnostic, or a panic (an `unwrap` of `None`). -/
inductive MacroOutcome (α : Type) where
  | ok (val : α)
  | err (msg : String)
  | panicked (msg : String)
deriving DecidableEq, Repr

/-- The conflict checks at the end of `ApiErrorAttrs::parse`
(`error/attrs.rs` lines 155 to 184).  The attribute-token collection loop
that precedes them is a faithful pass over the `syn` token tree and is not
re-modelled; the checks receive the collected attributes.  Note that the
first check builds its diagnostic from `external_tok.unwrap()`, which
panics whenever `inner` conflicts with an attribute other than a bare
`external`. -/
def ApiErrorAttrs.parseChecks (a : ApiErrorAttrs) : MacroOutcome ApiErrorAttrs :=
  if a.inner_tok.isSome &&
      (a.external_tok.isSome || a.external_message.isSome
        || a.internal_tok.isSome || a.code.isSome) then
    match a.external_tok with
    | some _ => .err "inner does not make sense alongside any other attributes"
    | none => .panicked "called Option::unwrap on a None value"
  else if a.external_tok.isSome && a.internal_tok.isSome then
    match a.external_tok with
    | some _ => .err "internal and external cannot be declared together"
    | none => .panicked "called Option::unwrap on a None value"
  else if a.external_tok.isSome && a.external_message.isSome then
    match a.external_tok with
    | some _ => .err "external and an external message cannot be declared together"
    | none => .panicked "called Option::unwrap on a None value"
  else
    .ok a

/-- `ApiErrorAttrs::finalise` from `error/attrs.rs` lines 21 to 67.  The
`u16` literal parse of `code` is modelled as already carried out (the
claims only exercise in-range literals).  Note that `code` is read before
the `inner` normalisation clears the field, exactly as in the source. -/
def ApiErrorAttrs.finalise (a0 : ApiErrorAttrs) : Except String FinalApiErrorAttrs :=
  let code := a0.code.getD 500
  let a :=
    if a0.inner_tok.isSome then
      { a0 with internal_tok := none, external_tok := none,
                external_message := none, code := none }
    else a0
  if a.external_tok.isSome && a.external_message.isSome then
    .error "external and an external message should not both be provided"
  else if a.internal_tok.isSome || a.external_message.isSome then
    .ok { external_message := some (a.external_message.getD ApiError.SERVER_ERROR),
          code := code,
          delegate_to_child := false }
  else if a.external_tok.isSome then
    .ok { external_message := none, code := code, delegate_to_child := false }
  else
    .ok { external_message := none, code := 0, delegate_to_child := true }

/-- The body of the `From<T> for ApiError` impl that `parse_struct`
(`error/mod.rs` lines 47 to 67) generates for a non-delegating error type:
`code` and the finalised external message (falling back to the rendering,
`format!` of the value) are baked in, while `internal_message` is always
the rendering. -/
def structApiErrorFrom (fin : FinalApiErrorAttrs) (rendering : String) : ApiError :=
  { code := fin.code,
    internal_message := rendering,
    external_message := fin.external_message.getD rendering,
    value := none }

/-! ## Schema model (`seamless/src/api/info.rs`)

`ApiBodyInfo` pairs a description with a shape; `HashMap<String, ApiBodyInfo>`
object keys are modelled as association lists in iteration order. -/

mutual

/-- `ApiBodyInfo` from `api/info.rs`: description plus shape. -/
inductive ApiBodyInfo where
  | mk (description : String) (ty : ApiBodyType)

/-- `ApiBodyType` from `api/info.rs`: the closed set of JSON shapes. -/
inductive ApiBodyType where
  | String
  | Number
  | Boolean
  | Null
  | Any
  | ArrayOf (value : ApiBodyInfo)
  | TupleOf (values : List ApiBodyInfo)
  | ObjectOf (value : ApiBodyInfo)
  | Object (keys : List (String × ApiBodyInfo))
  | OneOf (values : List ApiBodyInfo)
  | StringLiteral (literal : String)
  | Optional (value : ApiBodyInfo)

end

/-- Projection: the description of an `ApiBodyInfo`. -/
def ApiBodyInfo.description : ApiBodyInfo → String
  | .mk d _ => d

/-- Projection: the shape of an `ApiBodyInfo`. -/
def ApiBodyInfo.ty : ApiBodyInfo → ApiBodyType
  | .mk _ t => t

/-- `HashMap::insert` on an association list kept in iteration order: the
value of an existing key is replaced in place, a new key is appended. -/
def assocInsert {β : Type} (m : List (String × β)) (k : String) (v : β) :
    List (String × β) :=
  match m with
  | [] => [(k, v)]
  | (k0, v0) :: rest =>
      if k0 = k then (k, v) :: rest else (k0, v0) :: assocInsert rest k v

/-! ## Union schema derivation (`seamless-macros/src/body/mod.rs`)

A variant of a `union` (Rust enum) declaration after field classification
by `Fields::from_syn` (`body/fields.rs`): unit, a single unnamed field
(whose type must expose struct info), named fields, or several unnamed
fields (a tuple variant, always rejected). -/

/-- The struct info (`ApiBodyStructInfo`) of the inner type of a
single-value variant: its description and its object keys. -/
structure ApiBodyStructInfo where
  description : String
  struc : List (String × ApiBodyInfo)

/-- One enum variant as consumed by `parse_enum` in `body/mod.rs`:
its name, its doc text, and its field classification. -/
inductive EnumVariant where
  | unit (name docs : String)
  | single (name docs : String) (inner : ApiBodyStructInfo)
  | named (name docs : String) (fields : List (String × ApiBodyInfo))
  | tuple (name docs : String)

/-- Whether a variant is a unit variant. -/
def EnumVariant.isUnit : EnumVariant → Bool
  | .unit _ _ => true
  | _ => false

/-- The fixed description injected on the discriminant key
(`VARIANT_DESCRIPTION` in `body/mod.rs`). -/
def VARIANT_DESCRIPTION : String := "Variant tag"

/-- The `ApiBodyInfo` generated for one unit variant by `parse_enum`. -/
def unitVariantInfo : EnumVariant → ApiBodyInfo
  | .unit name docs => .mk docs (.StringLiteral name)
  | _ => .mk "" .Null

/-- The variant loop of `parse_enum` (`body/mod.rs` lines 53 to 137):
walks the variants in order, tracking whether unit and non-unit variants
have been seen, rejecting tuple variants and any mix of unit with
non-unit variants, and otherwise producing each variant schema. -/
def parseEnumLoop (serdeTag : String) :
    List EnumVariant → Bool → Bool → Except String (List ApiBodyInfo)
  | [], _, _ => .ok []
  | v :: vs, seenUnit, seenNonunit =>
    match v with
    | .tuple _ _ => .error "Enum tuple variants are not allowed"
    | .unit name docs =>
        if seenNonunit then
          .error "Unit enum fields cannot be mixed with named fields"
        else
          (parseEnumLoop serdeTag vs true seenNonunit).map
            (fun rest => ApiBodyInfo.mk docs (.StringLiteral name) :: rest)
    | .single name docs inner =>
        if seenUnit then
          .error "Unit enum fields cannot be mixed with named fields"
        else
          let keys := assocInsert inner.struc serdeTag
            (.mk VARIANT_DESCRIPTION (.StringLiteral name))
          let info := ApiBodyInfo.mk
            (if docs.length = 0 then inner.description else docs)
            (.Object keys)
          (parseEnumLoop serdeTag vs seenUnit true).map (fun rest => info :: rest)
    | .named name docs fields =>
        if seenUnit then
          .error "Unit enum fields cannot be mixed with named fields"
        else
          let keys := fields.foldl (fun m kv => assocInsert m kv.1 kv.2)
            (assocInsert [] serdeTag (.mk VARIANT_DESCRIPTION (.StringLiteral name)))
          let info := ApiBodyInfo.mk docs (.Object keys)
          (parseEnumLoop serdeTag vs seenUnit true).map (fun rest => info :: rest)

/-- `parse_enum` from `body/mod.rs` (the schema half of the generated
code): the serde tag defaults to `"kind"`, the variants are walked by
`parseEnumLoop`, and the overall schema is `OneOf` of the variant
schemas with the top-level doc text. -/
def parseEnum (topDocs : String) (tagAttr : Option String)
    (variants : List EnumVariant) : Except String ApiBodyInfo :=
  let serdeTag := tagAttr.getD "kind"
  (parseEnumLoop serdeTag variants false false).map
    (fun infos => .mk topDocs (.OneOf infos))

/-! ## Requests and parameter extractors (`seamless/src/handler`)

An `http::Request<B>` restricted to the parts the library reads: method,
URI path, headers and a body of type `B`.  Paths are modelled as lists of
characters so that the prefix/trim operations of `Api::handle` stay
close to the source.  A header value is `Option String`: `none` models a
value on which `to_str` fails (invalid visible-ASCII bytes). -/

/-- The request model.  `Request Unit` is the bodyless request handed to
parameter extractors. -/
structure Request (B : Type) where
  method : Method
  path : List Char
  headers : List (String × Option String)
  body : B

/-- Replace the body of a request, as `Request::from_parts` after
`into_parts` does in the pipeline. -/
def Request.withBody {B C : Type} (req : Request B) (body : C) : Request C :=
  { method := req.method, path := req.path, headers := req.headers, body := body }

/-- A parameter extractor (`RequestParam` in `handler/param.rs`,
re-exported as `HandlerParam`): from the bodyless request to a value or a
typed error. -/
def RequestParam (E V : Type) : Type := Request Unit → Except E V

/-- The `RequestParam` impl for `Option<T>` (`param.rs` lines 58 to 64):
`Ok(T::request_param(req).await.ok())`, with `Infallible` (`Empty`) as
the error type. -/
def optionRequestParam {E V : Type} (tParam : RequestParam E V) :
    RequestParam Empty (Option V) :=
  fun req => .ok (match tParam req with | .ok v => some v | .error _ => none)

/-- The `RequestParam` impl for `Result<T, T::Error>` (`param.rs` lines
68 to 74): `Ok(T::request_param(req).await)`, keeping `T::Error` as the
(never used) error type. -/
def resultRequestParam {E V : Type} (tParam : RequestParam E V) :
    RequestParam E (Except E V) :=
  fun req => .ok (tParam req)

/-! ## Handler resolution (`seamless/src/handler/handler.rs`)

`IntoHandler::into_handler` is generated per arity by the
`resolve_for_contexts!` macro; the generated body runs the parameter
extractors in declared order with `?` propagation (each error mapped
`Into<ApiError>`), then the body extractor, then the handler function and
response conversion.  The arity-generic family collapses to a list of
extractors sharing one value and one error type.  Invocation counts are
recorded so that short-circuiting is observable. -/

/-- Outcome of running the resolved handler pipeline: the result plus how
often each parameter extractor, the body extractor and the handler
function were invoked.  `paramCalls` is aligned with the extractor list. -/
structure PipelineOutcome (R : Type) where
  result : Except ApiError R
  paramCalls : List Nat
  bodyCalls : Nat
  handlerCalls : Nat
deriving Repr

/-- Run the parameter extractors in declared order against the bodyless
request, stopping at the first failure (whose error is mapped to
`ApiError` by `toApi`, the `Into<ApiError>` conversion); also counts each
extractor invocation. -/
def runParams {E V : Type} (toApi : E → ApiError) (req : Request Unit) :
    List (RequestParam E V) → Except ApiError (List V) × List Nat
  | [] => (.ok [], [])
  | p :: ps =>
    match p req with
    | .error e => (.error (toApi e), 1 :: ps.map (fun _ => 0))
    | .ok v =>
      match runParams toApi req ps with
      | (.error err, counts) => (.error err, 1 :: counts)
      | (.ok vs, counts) => (.ok (v :: vs), 1 :: counts)

/-- The resolved handler body generated by `into_handler` for the
`WithBody` impls (`handler/handler.rs` lines 70 to 109): strip the body,
run each parameter extractor in order with `?`, reattach the body, run
the body extractor with `?`, call the handler function and convert its
response with `?`.  Each error type is mapped into `ApiError` by its
conversion.  The final JSON response serialisation is abstracted into the
handler result `R`. -/
def intoHandlerWithBody {E V BE B HE R BodyT : Type}
    (toApi : E → ApiError) (bodyToApi : BE → ApiError) (handlerToApi : HE → ApiError)
    (params : List (RequestParam E V))
    (handler_body : Request BodyT → Except BE B)
    (handlerFn : List V → B → Except HE R)
    (req : Request BodyT) : PipelineOutcome R :=
  let bodyless := req.withBody ()
  match runParams toApi bodyless params with
  | (.error e, counts) =>
      { result := .error e, paramCalls := counts, bodyCalls := 0, handlerCalls := 0 }
  | (.ok vs, counts) =>
      match handler_body (bodyless.withBody req.body) with
      | .error e =>
          { result := .error (bodyToApi e), paramCalls := counts,
            bodyCalls := 1, handlerCalls := 0 }
      | .ok b =>
          match handlerFn vs b with
          | .error e =>
              { result := .error (handlerToApi e), paramCalls := counts,
                bodyCalls := 1, handlerCalls := 1 }
          | .ok r =>
              { result := .ok r, paramCalls := counts,
                bodyCalls := 1, handlerCalls := 1 }

/-! ## JSON body extraction (`seamless/src/handler/body.rs`) -/

/-- Rust `char::to_ascii_lowercase`, applied characterwise by
`str::to_ascii_lowercase`. -/
def asciiLowerChar (c : Char) : Char :=
  if 65 ≤ c.toNat ∧ c.toNat ≤ 90 then Char.ofNat (c.toNat + 32) else c

/-- `str::to_ascii_lowercase` on a header value. -/
def asciiLower (s : String) : String :=
  String.mk (s.data.map asciiLowerChar)

/-- `content_type_not_json_err` from `body.rs` lines 108 to 115. -/
def content_type_not_json_err : ApiError :=
  { code := 415,
    internal_message := "Content-Type must be application/json",
    external_message := "Content-Type must be application/json",
    value := none }

/-- The Content-Type acceptance test of `FromJson::handler_body`
(`body.rs` lines 49 to 58): the header must be present, readable as a
string, and equal to `application/json` after ASCII lowercasing. -/
def contentTypeIsJson (header : Option (Option String)) : Bool :=
  match header with
  | none => false
  | some none => false
  | some (some s) => asciiLower s = "application/json"

/-- Outcome of a body extractor, recording whether the body bytes were
read and whether the JSON parser ran. -/
structure BodyOutcome (T : Type) where
  result : Except ApiError T
  readCalls : Nat
  parseCalls : Nat

/-- `FromJson::handler_body` (`body.rs` lines 47 to 79): require an
acceptable Content-Type (else the 415 error, without touching the body),
stream the body to bytes (a read failure becomes a 400 whose messages are
the I/O error text), then JSON-parse (the external serde primitive,
passed in as `parse`; a parse failure becomes a 400 whose messages are
the parser text). -/
def fromJsonHandlerBody {T : Type} (parse : List Nat → Except String T)
    (contentTypeHeader : Option (Option String))
    (readBody : Except String (List Nat)) : BodyOutcome T :=
  if !(contentTypeIsJson contentTypeHeader) then
    { result := .error content_type_not_json_err, readCalls := 0, parseCalls := 0 }
  else
    match readBody with
    | .error e =>
        { result := .error { code := 400, internal_message := e,
                             external_message := e, value := none },
          readCalls := 1, parseCalls := 0 }
    | .ok bytes =>
        match parse bytes with
        | .error e =>
            { result := .error { code := 400, internal_message := e,
                                 external_message := e, value := none },
              readCalls := 1, parseCalls := 1 }
        | .ok v =>
            { result := .ok v, readCalls := 1, parseCalls := 1 }

/-! ## The capped reader (`seamless/src/handler/request.rs`)

`CappedAsyncRead::poll_read` forwards one read of the underlying source,
adds the chunk length to the running total, and fails with an
`UnexpectedEof` error as soon as the total exceeds `MAX`.  A full read
sequence is the fold of that step over the chunks the underlying source
produces (`Poll::Pending` returns re-poll the same step, so only the
ready chunks matter). -/

/-- Run `CappedAsyncRead` over the chunks produced by the underlying
reader, starting from `bytesRead` bytes already counted: returns the
chunks passed through before any failure, and whether the size limit
error was raised. -/
def cappedRun (MAX : Nat) (bytesRead : Nat) :
    List (List Nat) → List (List Nat) × Bool
  | [] => ([], false)
  | chunk :: rest =>
    let total := bytesRead + chunk.length
    if MAX < total then ([], true)
    else
      let next := cappedRun MAX total rest
      (chunk :: next.1, next.2)

/-! ## Route registry and dispatch (`seamless/src/api/api.rs`)

`Api.routes` is a `HashMap<(Method, String), ResolvedApiRoute>`; it is
modelled as an association list carrying the map's iteration order
together with the map invariant that keys are unique.  `B` is the request
body type, `A` the response type produced by a resolved handler. -/

/-- The resolved `Handler` from `handler/handler.rs` lines 11 to 16:
expected method, the normalized handler function, and the request and
response schemas. -/
structure Handler (B A : Type) where
  method : Method
  run : Request B → Except ApiError A
  request_type : ApiBodyInfo
  response_type : ApiBodyInfo

/-- `ResolvedApiRoute` from `api/api.rs`: a resolved handler plus the
route description. -/
structure ResolvedApiRoute (B A : Type) where
  description : String
  resolved_handler : Handler B A

/-- The `Api` from `api/api.rs`: a base path and the route map. -/
structure Api (B A : Type) where
  base_path : List Char
  routes : List ((Method × List Char) × ResolvedApiRoute B A)

/-- `str::trim_start_matches('/')`. -/
def trimStartSlashes (s : List Char) : List Char :=
  s.dropWhile (fun c => c = '/')

/-- `str::trim_matches('/')`: surrounding slashes removed from both ends. -/
def trimSlashes (s : List Char) : List Char :=
  ((s.dropWhile (fun c => c = '/')).reverse.dropWhile (fun c => c = '/')).reverse

/-- `HashMap::get` on the modelled route map. -/
def routesGet {B A : Type} (rs : List ((Method × List Char) × ResolvedApiRoute B A))
    (k : Method × List Char) : Option (ResolvedApiRoute B A) :=
  match rs with
  | [] => none
  | (k0, v0) :: rest => if k0 = k then some v0 else routesGet rest k

/-- `HashMap::insert` on the modelled route map: the value of an existing
key is replaced in place, a new key is appended to the iteration order. -/
def routesInsert {B A : Type} (rs : List ((Method × List Char) × ResolvedApiRoute B A))
    (k : Method × List Char) (v : ResolvedApiRoute B A) :
    List ((Method × List Char) × ResolvedApiRoute B A) :=
  match rs with
  | [] => [(k, v)]
  | (k0, v0) :: rest =>
      if k0 = k then (k, v) :: rest else (k0, v0) :: routesInsert rest k v

/-- `Api::add_parts` (`api/api.rs` lines 72 to 80): resolve the handler,
trim surrounding slashes from the path, and insert the route under
`(method, trimmed path)`. -/
def Api.add_parts {B A : Type} (api : Api B A) (path : List Char)
    (description : String) (handler : Handler B A) : Api B A :=
  let trimmed := trimSlashes path
  { api with
    routes := routesInsert api.routes (handler.method, trimmed)
      { description := description, resolved_handler := handler } }

/-- `RouteError` from `api/api.rs`: either no route matched (the original
request is handed back) or the matched route failed. -/
inductive RouteError (B : Type) where
  | NotFound (req : Request B)
  | Err (e : ApiError)

/-- `Api::handle` (`api/api.rs` lines 87 to 109): trim leading slashes
from the base path and the request path; if the base path is not a prefix
the result is `NotFound` with the original request; otherwise the
remainder (leading slashes trimmed) and the request method are looked up,
a hit runs the resolved handler (errors wrapped as `RouteError::Err`) and
a miss returns `NotFound` with the original request. -/
def Api.handle {B A : Type} (api : Api B A) (req : Request B) :
    Except (RouteError B) A :=
  let base_path := trimStartSlashes api.base_path
  let req_path := trimStartSlashes req.path
  if base_path.isPrefixOf req_path then
    let req_path_tail := trimStartSlashes (req_path.drop base_path.length)
    match routesGet api.routes (req.method, req_path_tail) with
    | some route =>
        match route.resolved_handler.run req with
        | .ok resp => .ok resp
        | .error e => .error (.Err e)
    | none => .error (.NotFound req)
  else
    .error (.NotFound req)

/-! ## Introspection (`Api::info`)

`info` pushes one `RouteInfo` per route in map iteration order and then
sorts in place with a stable sort comparing only `name`
(`String::cmp`, lexicographic on character values). -/

/-- `RouteInfo` from `api/api.rs`. -/
structure RouteInfo where
  name : List Char
  method : String
  description : String
  request_type : ApiBodyInfo
  response_type : ApiBodyInfo

/-- Lexicographic less-or-equal on character lists: the Boolean
computation underlying Rust `str::cmp`. -/
def lexLe : List Char → List Char → Bool
  | [], _ => true
  | _ :: _, [] => false
  | a :: as, b :: bs => if a < b then true else if b < a then false else lexLe as bs

/-- The comparison `a.name.cmp(&b.name)` used by `Api::info`, as a
relation on `RouteInfo`. -/
def infoLe (a b : RouteInfo) : Prop := lexLe a.name b.name = true

instance : DecidableRel infoLe :=
  fun a b => inferInstanceAs (Decidable (lexLe a.name b.name = true))

/-- The `RouteInfo` built from one registered route by `Api::info`. -/
def routeInfoOf {B A : Type} (entry : (Method × List Char) × ResolvedApiRoute B A) :
    RouteInfo :=
  { name := entry.1.2,
    method := entry.2.resolved_handler.method.render,
    description := entry.2.description,
    request_type := entry.2.resolved_handler.request_type,
    response_type := entry.2.resolved_handler.response_type }

/-- `Api::info` (`api/api.rs` lines 112 to 125): map the routes in
iteration order to `RouteInfo` and sort stably by name.  Rust
`sort_by` is a stable sort, as is `List.insertionSort`. -/
def Api.info {B A : Type} (api : Api B A) : List RouteInfo :=
  List.insertionSort infoLe (api.routes.map routeInfoOf)

/-! ## Concrete fixtures used by witnesses and counterexamples -/

/-- A route registered as `echo` expecting `POST`, whose handler returns `7`. -/
def echoRoute : ResolvedApiRoute Unit Nat :=
  { description := "echo",
    resolved_handler :=
      { method := .POST, run := fun _ => .ok 7,
        request_type := .mk "" .Null, response_type := .mk "" .Null } }

/-- An `Api` with base path `/api` and the single route `echo`. -/
def apiWithBase : Api Unit Nat :=
  { base_path := "/api".toList,
    routes := [((Method.POST, "echo".toList), echoRoute)] }

/-- An `Api` with no routes and an empty base path. -/
def apiEmpty : Api Unit Nat := { base_path := [], routes := [] }

/-- A first registration's handler, returning `1`. -/
def handlerOne : Handler Unit Nat :=
  { method := .POST, run := fun _ => .ok 1,
    request_type := .mk "" .Null, response_type := .mk "" .Null }

/-- A second registration's handler, returning `2`. -/
def handlerTwo : Handler Unit Nat :=
  { method := .POST, run := fun _ => .ok 2,
    request_type := .mk "" .Null, response_type := .mk "" .Null }

/-- A route under path `p` for a given method, with a distinguishing
description. -/
def routeForMethod (m : Method) (d : String) : ResolvedApiRoute Unit Nat :=
  { description := d,
    resolved_handler :=
      { method := m, run := fun _ => .ok 0,
        request_type := .mk "" .Null, response_type := .mk "" .Null } }

/-- An `Api` whose registry holds the same two routes (path `p` under
`GET` and under `POST`) in one iteration order... -/
def apiIterationOrderA : Api Unit Nat :=
  { base_path := [],
    routes := [((Method.GET, "p".toList), routeForMethod .GET "g"),
               ((Method.POST, "p".toList), routeForMethod .POST "h")] }

/-- ...and the same registrations in the other iteration order.  Both are
reachable states of `HashMap`: iteration order depends on the per-map
random hasher seed, not on the set of registrations. -/
def apiIterationOrderB : Api Unit Nat :=
  { base_path := [],
    routes := [((Method.POST, "p".toList), routeForMethod .POST "h"),
               ((Method.GET, "p".toList), routeForMethod .GET "g")] }

/-! ## Basic lemmas on the lexicographic comparison -/

/-- `lexLe` is total. -/
theorem lexLe_total : ∀ a b : List Char, lexLe a b = true ∨ lexLe b a = true
  | [], _ => .inl rfl
  | _ :: _, [] => .inr rfl
  | a :: as, b :: bs => by
    rcases lt_trichotomy a b with h | h | h
    · left; simp [lexLe, h]
    · subst h
      rcases lexLe_total as bs with ih | ih
      · left; simp [lexLe, lt_irrefl, ih]
      · right; simp [lexLe, lt_irrefl, ih]
    · right; simp [lexLe, h]

/-- `lexLe` is transitive. -/
theorem lexLe_trans : ∀ a b c : List Char,
    lexLe a b = true → lexLe b c = true → lexLe a c = true
  | [], _, _, _, _ => rfl
  | _ :: _, [], _, h1, _ => by simp [lexLe] at h1
  | _ :: _, _ :: _, [], _, h2 => by simp [lexLe] at h2
  | a :: as, b :: bs, c :: cs, h1, h2 => by
    rcases lt_trichotomy a b with hab | hab | hab
    · rcases lt_trichotomy b c with hbc | hbc | hbc
      · simp [lexLe, lt_trans hab hbc]
      · subst hbc; simp [lexLe, hab]
      · exfalso; simp [lexLe, hbc, lt_asymm hbc] at h2
    · subst hab
      simp only [lexLe, lt_irrefl, if_false] at h1
      rcases lt_trichotomy a c with hac | hac | hac
      · simp [lexLe, hac]
      · subst hac
        simp only [lexLe, lt_irrefl, if_false] at h2 ⊢
        exact lexLe_trans as bs cs h1 h2
      · exfalso; simp [lexLe, hac, lt_asymm hac] at h2
    · exfalso; simp [lexLe, hab, lt_asymm hab] at h1

instance : IsTotal RouteInfo infoLe :=
  ⟨fun a b => lexLe_total a.name b.name⟩

instance : IsTrans RouteInfo infoLe :=
  ⟨fun a b c => lexLe_trans a.name b.name c.name⟩

/-! ## Claims -/

/-- Claim C10: the derived extractor for `Option<T>` never fails — it
returns `Some v` exactly when `T` returns `v` and `None` exactly when `T`
errors — and the derived extractor for `Result<T, T::Error>` never fails
and returns `T`'s outcome as its value. -/
theorem option_result_param_never_fail {E V : Type}
    (tParam : RequestParam E V) (req : Request Unit) :
    (∃ o, optionRequestParam tParam req = .ok o)
    ∧ (∀ v, optionRequestParam tParam req = .ok (some v) ↔ tParam req = .ok v)
    ∧ (optionRequestParam tParam req = .ok none ↔ ∃ e, tParam req = .error e)
    ∧ resultRequestParam tParam req = .ok (tParam req) := by
  cases h : tParam req <;>
    simp [optionRequestParam, resultRequestParam, h]

/-- Claim C3: for an error type whose attributes set `internal` (or an
explicit external message) and not `inner`, finalisation yields the
declared code or 500, the declared external message or the fixed default,
and the generated conversion renders the value as the internal message. -/
theorem internal_error_classification (a : ApiErrorAttrs) (rendering : String)
    (hInner : a.inner_tok = none)
    (hSet : a.internal_tok.isSome ∨ a.external_message.isSome)
    (hNoConflict : ¬(a.external_tok.isSome = true ∧ a.external_message.isSome = true)) :
    a.finalise = .ok { external_message := some (a.external_message.getD ApiError.SERVER_ERROR),
                       code := a.code.getD 500,
                       delegate_to_child := false }
    ∧ a.finalise.map (fun fin => structApiErrorFrom fin rendering)
        = .ok { code := a.code.getD 500,
                internal_message := rendering,
                external_message := a.external_message.getD ApiError.SERVER_ERROR,
                value := none } := by
  have h1 : a.inner_tok.isSome = false := by rw [hInner]; rfl
  have h2 : (a.external_tok.isSome && a.external_message.isSome) = false := by
    cases hex : a.external_tok.isSome <;> cases hem : a.external_message.isSome <;>
      simp_all
  have h3 : (a.internal_tok.isSome || a.external_message.isSome) = true := by
    rcases hSet with h | h <;> simp [h]
  refine ⟨?_, ?_⟩ <;>
    simp [ApiErrorAttrs.finalise, h1, h2, h3, structApiErrorFrom, Except.map]

/-- Witness for C3: the concrete instance of the claim — a type marked
`internal` with `code = 401` rendering as `"bad"` classifies to
`ApiError` with code 401, internal message `"bad"` and the fixed default
external message. -/
theorem internal_error_classification_witness :
    (ApiErrorAttrs.finalise
        { external_tok := none, internal_tok := some (), inner_tok := none,
          external_message := none, code := some 401 }).map
      (fun fin => structApiErrorFrom fin "bad")
      = .ok { code := 401, internal_message := "bad",
              external_message := "Internal server error", value := none } := by
  have h := internal_error_classification
    { external_tok := none, internal_tok := some (), inner_tok := none,
      external_message := none, code := some 401 }
    "bad" rfl (Or.inl rfl) (by simp)
  simpa using h.2

/-- Claim C8 (divergence witness): when `inner` co-occurs with `code`
alone the conflict check of `ApiErrorAttrs::parse` does not return a
diagnostic — it panics, because the diagnostic span is taken from
`external_tok.unwrap()` and `external_tok` is `None` there. -/
theorem inner_code_conflict_panics :
    ApiErrorAttrs.parseChecks
        { external_tok := none, internal_tok := none, inner_tok := some (),
          external_message := none, code := some 400 }
      = .panicked "called Option::unwrap on a None value"
    ∧ ApiErrorAttrs.parseChecks
        { external_tok := none, internal_tok := some (), inner_tok := some (),
          external_message := none, code := none }
      = .panicked "called Option::unwrap on a None value"
    ∧ ApiErrorAttrs.parseChecks
        { external_tok := some (), internal_tok := none, inner_tok := some (),
          external_message := none, code := none }
      = .err "inner does not make sense alongside any other attributes" :=
  ⟨rfl, rfl, rfl⟩

/-- Claim C9: JSON body extraction returns the fixed 415 error without
reading or parsing the body whenever the Content-Type header is missing
or not `application/json`; with an acceptable header and readable body it
returns a 400 error carrying the parser message when parsing fails, and
the decoded value otherwise. -/
theorem from_json_body_contract {T : Type} (parse : List Nat → Except String T)
    (ct : Option (Option String)) (readBody : Except String (List Nat)) :
    (contentTypeIsJson ct = false ↔
       (ct = none ∨ ct = some none
         ∨ ∃ s, ct = some (some s) ∧ asciiLower s ≠ "application/json"))
    ∧ (contentTypeIsJson ct = false →
        fromJsonHandlerBody parse ct readBody
          = { result := .error content_type_not_json_err,
              readCalls := 0, parseCalls := 0 })
    ∧ (contentTypeIsJson ct = true →
        ∀ bytes, readBody = .ok bytes →
          (∀ e, parse bytes = .error e →
             fromJsonHandlerBody parse ct readBody
               = { result := .error { code := 400, internal_message := e,
                                      external_message := e, value := none },
                   readCalls := 1, parseCalls := 1 })
          ∧ (∀ v, parse bytes = .ok v →
             fromJsonHandlerBody parse ct readBody
               = { result := .ok v, readCalls := 1, parseCalls := 1 })) := by
  refine ⟨?_, ?_, ?_⟩
  · match ct with
    | none => simp [contentTypeIsJson]
    | some none => simp [contentTypeIsJson]
    | some (some s) => by_cases h : asciiLower s = "application/json" <;>
        simp [contentTypeIsJson, h]
  · intro hct
    simp [fromJsonHandlerBody, hct]
  · intro hct bytes hread
    constructor
    · intro e hparse
      simp [fromJsonHandlerBody, hct, hread, hparse]
    · intro v hparse
      simp [fromJsonHandlerBody, hct, hread, hparse]

/-- Witness for C9: a request with Content-Type `application/json` and a
body parsing to `7` succeeds, after one read and one parse. -/
theorem from_json_body_contract_witness :
    fromJsonHandlerBody (fun _ => (.ok 7 : Except String Nat))
        (some (some "application/json")) (.ok [123])
      = { result := .ok 7, readCalls := 1, parseCalls := 1 } :=
  ((from_json_body_contract (fun _ => .ok 7)
      (some (some "application/json")) (.ok [123])).2.2
    (by decide) [123] rfl).2 7 rfl

/-- Claim C1: with two or more parameter extractors, a failure of the
first short-circuits the pipeline — the later extractors, the body
extractor and the handler function are never invoked, and the route
result is the first extractor's error mapped into `ApiError`. -/
theorem pipeline_short_circuits_on_first_param_error
    {E V BE B HE R BodyT : Type}
    (toApi : E → ApiError) (bodyToApi : BE → ApiError) (handlerToApi : HE → ApiError)
    (p0 p1 : RequestParam E V) (rest : List (RequestParam E V))
    (handler_body : Request BodyT → Except BE B)
    (handlerFn : List V → B → Except HE R)
    (req : Request BodyT) (e : E)
    (hfail : p0 (req.withBody ()) = .error e) :
    intoHandlerWithBody toApi bodyToApi handlerToApi (p0 :: p1 :: rest)
        handler_body handlerFn req
      = { result := .error (toApi e),
          paramCalls := 1 :: 0 :: rest.map (fun _ => 0),
          bodyCalls := 0,
          handlerCalls := 0 } := by
  simp [intoHandlerWithBody, runParams, hfail]

/-- Witness for C1: a concrete two-extractor pipeline whose first
extractor fails; the second extractor, the body extractor and the
handler are never called and the mapped error is returned. -/
theorem pipeline_short_circuit_witness :
    intoHandlerWithBody
        (fun _ : Unit => { code := 500, internal_message := "ctx", external_message := "ctx",
                           value := none })
        (fun _ : Unit => { code := 400, internal_message := "b", external_message := "b",
                           value := none })
        (fun _ : Unit => { code := 500, internal_message := "h", external_message := "h",
                           value := none })
        [fun _ => .error (), fun _ => .ok 1]
        (fun _ => (.ok 2 : Except Unit Nat))
        (fun _ _ => (.ok 3 : Except Unit Nat))
        { method := .GET, path := [], headers := [], body := [5] }
      = { result := .error { code := 500, internal_message := "ctx",
                             external_message := "ctx", value := none },
          paramCalls := [1, 0],
          bodyCalls := 0,
          handlerCalls := 0 } :=
  pipeline_short_circuits_on_first_param_error
    (fun _ : Unit => { code := 500, internal_message := "ctx", external_message := "ctx",
                       value := none })
    (fun _ : Unit => { code := 400, internal_message := "b", external_message := "b",
                       value := none })
    (fun _ : Unit => { code := 500, internal_message := "h", external_message := "h",
                       value := none })
    (fun _ => .error ()) (fun _ => .ok 1) []
    (fun _ => (.ok 2 : Except Unit Nat))
    (fun _ _ => (.ok 3 : Except Unit Nat))
    { method := .GET, path := [], headers := [], body := [5] }
    () rfl

/-- While the running total stays within the cap every chunk passes
through `cappedRun` unchanged. -/
theorem cappedRun_within_cap (MAX : Nat) :
    ∀ (chunks : List (List Nat)) (sofar : Nat),
      sofar + (chunks.map List.length).sum ≤ MAX →
      cappedRun MAX sofar chunks = (chunks, false)
  | [], _, _ => rfl
  | chunk :: rest, sofar, h => by
    have hchunk : ¬ MAX < sofar + chunk.length := by
      simp only [List.map_cons, List.sum_cons] at h
      omega
    have hrest : sofar + chunk.length + (rest.map List.length).sum ≤ MAX := by
      simp only [List.map_cons, List.sum_cons] at h
      omega
    simp [cappedRun, hchunk, cappedRun_within_cap MAX rest (sofar + chunk.length) hrest]

/-- The first chunk that pushes the running total beyond the cap makes
`cappedRun` fail there, passing through exactly the earlier chunks, no
matter how much data remains. -/
theorem cappedRun_fails_at_first_excess (MAX : Nat) :
    ∀ (p : List (List Nat)) (c : List Nat) (rest : List (List Nat)) (sofar : Nat),
      sofar + (p.map List.length).sum ≤ MAX →
      MAX < sofar + (p.map List.length).sum + c.length →
      cappedRun MAX sofar (p ++ c :: rest) = (p, true)
  | [], c, rest, sofar, _, hover => by
    have : MAX < sofar + c.length := by simpa using hover
    simp [cappedRun, this]
  | q :: p, c, rest, sofar, hok, hover => by
    have hq : ¬ MAX < sofar + q.length := by
      simp only [List.map_cons, List.sum_cons] at hok
      omega
    have hok2 : sofar + q.length + (p.map List.length).sum ≤ MAX := by
      simp only [List.map_cons, List.sum_cons] at hok
      omega
    have hover2 : MAX < sofar + q.length + (p.map List.length).sum + c.length := by
      simp only [List.map_cons, List.sum_cons] at hover
      omega
    simp [cappedRun, hq,
      cappedRun_fails_at_first_excess MAX p c rest (sofar + q.length) hok2 hover2]

/-- Claim C5: the capped reader passes every chunk through while the
cumulative total stays at or below `MAX` (in particular reading exactly
`MAX` bytes in total succeeds), and the first read that takes the
cumulative total strictly beyond `MAX` fails, even when the underlying
source still has more data. -/
theorem capped_reader_limit (MAX : Nat) (chunks : List (List Nat)) :
    ((chunks.map List.length).sum ≤ MAX →
       cappedRun MAX 0 chunks = (chunks, false))
    ∧ (∀ p c rest, chunks = p ++ c :: rest →
        (p.map List.length).sum ≤ MAX →
        MAX < (p.map List.length).sum + c.length →
        cappedRun MAX 0 chunks = (p, true)) := by
  constructor
  · intro h
    exact cappedRun_within_cap MAX chunks 0 (by simpa using h)
  · intro p c rest hsplit hok hover
    subst hsplit
    exact cappedRun_fails_at_first_excess MAX p c rest 0
      (by simpa using hok) (by simpa using hover)

/-- Witness for C5: with a cap of 5, reading chunks of 3 and 3 bytes
fails on the second read even though a third chunk remains, while
reading 2 then 3 bytes (exactly the cap) succeeds. -/
theorem capped_reader_limit_witness :
    cappedRun 5 0 [[1, 2, 3], [4, 5, 6], [7]] = ([[1, 2, 3]], true)
    ∧ cappedRun 5 0 [[1, 2], [3, 4, 5]] = ([[1, 2], [3, 4, 5]], false) :=
  ⟨(capped_reader_limit 5 [[1, 2, 3], [4, 5, 6], [7]]).2
      [[1, 2, 3]] [4, 5, 6] [[7]] rfl (by decide) (by decide),
   (capped_reader_limit 5 [[1, 2], [3, 4, 5]]).1 (by decide)⟩

/-- If the seen-flags or the remaining variants force a unit and a
non-unit variant to meet, the `parse_enum` variant loop fails. -/
theorem parseEnumLoop_mixed_err (serdeTag : String) :
    ∀ (vs : List EnumVariant) (su sn : Bool),
      ((su = true ∧ ∃ v ∈ vs, v.isUnit = false)
        ∨ (sn = true ∧ ∃ v ∈ vs, v.isUnit = true)
        ∨ ((∃ v ∈ vs, v.isUnit = true) ∧ ∃ v ∈ vs, v.isUnit = false)) →
      ∃ msg, parseEnumLoop serdeTag vs su sn = .error msg
  | [], su, sn, h => by
    rcases h with ⟨_, _, hmem, _⟩ | ⟨_, _, hmem, _⟩ | ⟨⟨_, hmem, _⟩, _⟩ <;> cases hmem
  | v :: vs, su, sn, h => by
    cases v with
    | tuple name docs => exact ⟨_, rfl⟩
    | unit name docs =>
      cases sn with
      | true => exact ⟨_, rfl⟩
      | false =>
        have hnonunit : ∃ v ∈ vs, v.isUnit = false := by
          rcases h with ⟨_, w, hmem, hw⟩ | ⟨hsn, _⟩ | ⟨_, w, hmem, hw⟩
          · rcases List.mem_cons.mp hmem with rfl | hmem
            · cases hw
            · exact ⟨w, hmem, hw⟩
          · cases hsn
          · rcases List.mem_cons.mp hmem with rfl | hmem
            · cases hw
            · exact ⟨w, hmem, hw⟩
        obtain ⟨msg, hmsg⟩ :=
          parseEnumLoop_mixed_err serdeTag vs true false (.inl ⟨rfl, hnonunit⟩)
        exact ⟨msg, by simp [parseEnumLoop, hmsg, Except.map]⟩
    | single name docs inner =>
      cases su with
      | true => exact ⟨_, rfl⟩
      | false =>
        have hunit : ∃ v ∈ vs, v.isUnit = true := by
          rcases h with ⟨hsu, _⟩ | ⟨_, w, hmem, hw⟩ | ⟨⟨w, hmem, hw⟩, _⟩
          · cases hsu
          · rcases List.mem_cons.mp hmem with rfl | hmem
            · cases hw
            · exact ⟨w, hmem, hw⟩
          · rcases List.mem_cons.mp hmem with rfl | hmem
            · cases hw
            · exact ⟨w, hmem, hw⟩
        obtain ⟨msg, hmsg⟩ :=
          parseEnumLoop_mixed_err serdeTag vs false true (.inr (.inl ⟨rfl, hunit⟩))
        exact ⟨msg, by simp [parseEnumLoop, hmsg, Except.map]⟩
    | named name docs fields =>
      cases su with
      | true => exact ⟨_, rfl⟩
      | false =>
        have hunit : ∃ v ∈ vs, v.isUnit = true := by
          rcases h with ⟨hsu, _⟩ | ⟨_, w, hmem, hw⟩ | ⟨⟨w, hmem, hw⟩, _⟩
          · cases hsu
          · rcases List.mem_cons.mp hmem with rfl | hmem
            · cases hw
            · exact ⟨w, hmem, hw⟩
          · rcases List.mem_cons.mp hmem with rfl | hmem
            · cases hw
            · exact ⟨w, hmem, hw⟩
        obtain ⟨msg, hmsg⟩ :=
          parseEnumLoop_mixed_err serdeTag vs false true (.inr (.inl ⟨rfl, hunit⟩))
        exact ⟨msg, by simp [parseEnumLoop, hmsg, Except.map]⟩

/-- On an all-unit variant list the `parse_enum` loop succeeds with one
`StringLiteral` schema per variant, whatever the seen-unit flag. -/
theorem parseEnumLoop_all_unit (serdeTag : String) :
    ∀ (vs : List EnumVariant) (su : Bool),
      (∀ v ∈ vs, v.isUnit = true) →
      parseEnumLoop serdeTag vs su false = .ok (vs.map unitVariantInfo)
  | [], _, _ => rfl
  | v :: vs, su, h => by
    have hv : v.isUnit = true := h v (List.mem_cons_self v vs)
    cases v with
    | unit name docs =>
      have ih := parseEnumLoop_all_unit serdeTag vs true
        (fun w hw => h w (List.mem_cons_of_mem _ hw))
      simp [parseEnumLoop, ih, unitVariantInfo, Except.map]
    | single name docs inner => cases hv
    | named name docs fields => cases hv
    | tuple name docs => cases hv

/-- Claim C7: a union declaration mixing unit and non-unit variants is
rejected with a hard error in whichever order the variants appear, while
a union of only unit variants derives `OneOf` of the variants'
`StringLiteral` schemas with no error. -/
theorem union_unit_nonunit_mix (topDocs : String) (tagAttr : Option String)
    (variants : List EnumVariant) :
    ((∃ u ∈ variants, u.isUnit = true) → (∃ v ∈ variants, v.isUnit = false) →
       ∃ msg, parseEnum topDocs tagAttr variants = .error msg)
    ∧ ((∀ v ∈ variants, v.isUnit = true) →
       parseEnum topDocs tagAttr variants
         = .ok (.mk topDocs (.OneOf (variants.map unitVariantInfo)))) := by
  constructor
  · intro hu hn
    obtain ⟨msg, hmsg⟩ := parseEnumLoop_mixed_err (tagAttr.getD "kind") variants
      false false (.inr (.inr ⟨hu, hn⟩))
    exact ⟨msg, by simp [parseEnum, hmsg, Except.map]⟩
  · intro hall
    have h := parseEnumLoop_all_unit (tagAttr.getD "kind") variants false hall
    simp [parseEnum, h, Except.map]

/-- Witness for C7: mixing a unit variant `A` with a named-field variant
`B` is rejected in both orders, while the all-unit union 'A or B' derives
`OneOf [StringLiteral A, StringLiteral B]`. -/
theorem union_unit_nonunit_mix_witness :
    (∃ msg, parseEnum "" none [.unit "A" "", .named "B" "" []] = .error msg)
    ∧ (∃ msg, parseEnum "" none [.named "B" "" [], .unit "A" ""] = .error msg)
    ∧ parseEnum "docs" none [.unit "A" "", .unit "B" ""]
        = .ok (.mk "docs" (.OneOf [.mk "" (.StringLiteral "A"),
                                   .mk "" (.StringLiteral "B")])) := by
  refine ⟨?_, ?_, ?_⟩
  · refine (union_unit_nonunit_mix "" none _).1
      ⟨.unit "A" "", ?_, rfl⟩ ⟨.named "B" "" [], ?_, rfl⟩ <;> simp
  · refine (union_unit_nonunit_mix "" none _).1
      ⟨.unit "A" "", ?_, rfl⟩ ⟨.named "B" "" [], ?_, rfl⟩ <;> simp
  · have h := (union_unit_nonunit_mix "docs" none
      [.unit "A" "", .unit "B" ""]).2 ?_
    · simpa [unitVariantInfo] using h
    · intro v hv
      rcases List.mem_cons.mp hv with rfl | hv
      · rfl
      · rcases List.mem_cons.mp hv with rfl | hv
        · rfl
        · cases hv

/-! ## Registry lemmas -/

/-- Looking up the key just inserted returns the inserted route. -/
theorem routesGet_insert_self {B A : Type}
    (rs : List ((Method × List Char) × ResolvedApiRoute B A))
    (k : Method × List Char) (v : ResolvedApiRoute B A) :
    routesGet (routesInsert rs k v) k = some v := by
  induction rs with
  | nil => simp [routesInsert, routesGet]
  | cons e rest ih =>
    by_cases h : e.1 = k
    · simp [routesInsert, routesGet, h]
    · simp [routesInsert, routesGet, h, ih]

/-- The keys after an insert are the old keys plus the inserted key. -/
theorem mem_keys_routesInsert {B A : Type}
    (rs : List ((Method × List Char) × ResolvedApiRoute B A))
    (k k1 : Method × List Char) (v : ResolvedApiRoute B A) :
    k1 ∈ (routesInsert rs k v).map Prod.fst ↔ k1 ∈ rs.map Prod.fst ∨ k1 = k := by
  induction rs with
  | nil => simp [routesInsert]
  | cons e rest ih =>
    by_cases h : e.1 = k
    · subst h
      simp [routesInsert]
      tauto
    · simp [routesInsert, h, ih]
      tauto

/-- A key absent from a route list is counted zero times. -/
theorem countP_key_eq_zero_of_not_mem {B A : Type}
    (rs : List ((Method × List Char) × ResolvedApiRoute B A))
    (k : Method × List Char) (h : k ∉ rs.map Prod.fst) :
    rs.countP (fun e => e.1 = k) = 0 := by
  induction rs with
  | nil => rfl
  | cons e rest ih =>
    simp only [List.map_cons, List.mem_cons, not_or] at h
    rw [List.countP_cons]
    have h1 : ¬ e.1 = k := fun hh => h.1 hh.symm
    simp [h1, ih h.2]

/-- Inserting preserves uniqueness of the keys. -/
theorem nodup_keys_routesInsert {B A : Type}
    (rs : List ((Method × List Char) × ResolvedApiRoute B A))
    (k : Method × List Char) (v : ResolvedApiRoute B A)
    (h : (rs.map Prod.fst).Nodup) :
    ((routesInsert rs k v).map Prod.fst).Nodup := by
  induction rs with
  | nil => simp [routesInsert]
  | cons e rest ih =>
    simp only [List.map_cons, List.nodup_cons] at h
    by_cases hk : e.1 = k
    · subst hk
      simpa [routesInsert] using h
    · simp only [routesInsert, hk, if_false, List.map_cons, List.nodup_cons]
      refine ⟨?_, ih h.2⟩
      intro hmem
      rcases (mem_keys_routesInsert rest k e.1 v).mp hmem with hmem | heq
      · exact h.1 hmem
      · exact hk heq

/-- With unique keys, an insert leaves exactly one entry under the
inserted key. -/
theorem countP_routesInsert_self {B A : Type}
    (rs : List ((Method × List Char) × ResolvedApiRoute B A))
    (k : Method × List Char) (v : ResolvedApiRoute B A)
    (h : (rs.map Prod.fst).Nodup) :
    (routesInsert rs k v).countP (fun e => e.1 = k) = 1 := by
  induction rs with
  | nil => simp [routesInsert]
  | cons e rest ih =>
    simp only [List.map_cons, List.nodup_cons] at h
    by_cases hk : e.1 = k
    · subst hk
      have hzero : rest.countP (fun x => x.1 = e.1) = 0 :=
        countP_key_eq_zero_of_not_mem rest e.1 h.1
      simp [routesInsert, List.countP_cons, hzero]
    · simp [routesInsert, hk, List.countP_cons, ih h.2]

/-- Claim C6: registering twice under the same `(method, slash-trimmed
path)` key overwrites — the registry afterwards holds exactly one entry
for the key, with the second registration's description and handler —
and every key a registration stores is the surrounding-slash-trimmed
path together with the handler's method. -/
theorem reregistration_last_write_wins {B A : Type} (api : Api B A)
    (p1 p2 : List Char) (d1 d2 : String) (h1 h2 : Handler B A)
    (hnodup : (api.routes.map Prod.fst).Nodup)
    (hmethod : h1.method = h2.method)
    (hpath : trimSlashes p1 = trimSlashes p2) :
    (((api.add_parts p1 d1 h1).add_parts p2 d2 h2).routes.countP
        (fun e => e.1 = (h2.method, trimSlashes p2)) = 1)
    ∧ routesGet ((api.add_parts p1 d1 h1).add_parts p2 d2 h2).routes
        (h2.method, trimSlashes p2)
        = some { description := d2, resolved_handler := h2 }
    ∧ (∀ k ∈ ((api.add_parts p1 d1 h1).add_parts p2 d2 h2).routes.map Prod.fst,
        k ∈ api.routes.map Prod.fst ∨ k = (h2.method, trimSlashes p2)) := by
  have hkey : (h1.method, trimSlashes p1) = (h2.method, trimSlashes p2) := by
    rw [hmethod, hpath]
  refine ⟨?_, ?_, ?_⟩
  · simp only [Api.add_parts, hkey]
    exact countP_routesInsert_self _ _ _
      (nodup_keys_routesInsert api.routes _ _ hnodup)
  · simp only [Api.add_parts, hkey]
    exact routesGet_insert_self _ _ _
  · intro k hk
    simp only [Api.add_parts, hkey] at hk
    rcases (mem_keys_routesInsert _ _ _ _).mp hk with hk | hk
    · rcases (mem_keys_routesInsert _ _ _ _).mp hk with hk | hk
      · exact .inl hk
      · exact .inr hk
    · exact .inr hk

/-- Witness for C6: registering `echo/` and then `/echo` (same trimmed
key, same method) leaves one entry holding the second description and
handler. -/
theorem reregistration_last_write_wins_witness :
    (((apiEmpty.add_parts "echo/".toList "first" handlerOne).add_parts
          "/echo".toList "second" handlerTwo).routes.countP
        (fun e => e.1 = (Method.POST, trimSlashes "/echo".toList)) = 1)
    ∧ routesGet ((apiEmpty.add_parts "echo/".toList "first" handlerOne).add_parts
          "/echo".toList "second" handlerTwo).routes
        (Method.POST, trimSlashes "/echo".toList)
        = some { description := "second", resolved_handler := handlerTwo } := by
  have h := reregistration_last_write_wins apiEmpty
    "echo/".toList "/echo".toList "first" "second" handlerOne handlerTwo
    (by simp [apiEmpty]) rfl (by decide)
  exact ⟨h.1, h.2.1⟩

/-- Claim C4: `Api::handle` strips the base path as a prefix — a
non-prefix request path yields `NotFound` with the original request;
otherwise the slash-trimmed remainder and the method are looked up, a
miss yields `NotFound` with the original request and a hit runs that
route's resolved handler. -/
theorem handle_base_path_routing {B A : Type} (api : Api B A) (req : Request B) :
    ((trimStartSlashes api.base_path).isPrefixOf (trimStartSlashes req.path) = false →
       api.handle req = .error (.NotFound req))
    ∧ ((trimStartSlashes api.base_path).isPrefixOf (trimStartSlashes req.path) = true →
       routesGet api.routes (req.method,
           trimStartSlashes ((trimStartSlashes req.path).drop
             (trimStartSlashes api.base_path).length)) = none →
       api.handle req = .error (.NotFound req))
    ∧ (∀ route,
       (trimStartSlashes api.base_path).isPrefixOf (trimStartSlashes req.path) = true →
       routesGet api.routes (req.method,
           trimStartSlashes ((trimStartSlashes req.path).drop
             (trimStartSlashes api.base_path).length)) = some route →
       api.handle req = (route.resolved_handler.run req).mapError RouteError.Err) := by
  refine ⟨?_, ?_, ?_⟩
  · intro hpre
    simp [Api.handle, hpre]
  · intro hpre hget
    simp [Api.handle, hpre, hget]
  · intro route hpre hget
    simp only [Api.handle, hpre, if_true, hget]
    cases route.resolved_handler.run req <;> rfl

/-- Witness for C4: with base path `/api` and a route registered as
`echo`, the request `/api/echo` runs the handler (returning its value)
and `/other/echo` yields `NotFound` with the original request. -/
theorem handle_base_path_routing_witness :
    apiWithBase.handle { method := .POST, path := "/api/echo".toList,
                         headers := [], body := () } = .ok 7
    ∧ apiWithBase.handle { method := .POST, path := "/other/echo".toList,
                           headers := [], body := () }
        = .error (.NotFound { method := .POST, path := "/other/echo".toList,
                              headers := [], body := () }) := by
  constructor
  · exact (handle_base_path_routing apiWithBase
      { method := .POST, path := "/api/echo".toList, headers := [], body := () }).2.2
      echoRoute (by decide) rfl
  · exact (handle_base_path_routing apiWithBase
      { method := .POST, path := "/other/echo".toList, headers := [], body := () }).1
      (by decide)

/-- Claim C2 (amended): `Api::info` returns one entry per registered
route — the entry list is a permutation of the per-route `RouteInfo`s —
sorted lexicographically by name, and its length equals the number of
routes; it is a pure function of the registry, so repeated calls on the
same `Api` agree.  When several routes share a name the order among them
follows the registry's iteration order (see the counterexample). -/
theorem info_sorted_one_entry_per_route {B A : Type} (api : Api B A) :
    List.Sorted infoLe api.info
    ∧ api.info.Perm (api.routes.map routeInfoOf)
    ∧ api.info.length = api.routes.length := by
  refine ⟨List.sorted_insertionSort infoLe _, List.perm_insertionSort infoLe _, ?_⟩
  have h := (List.perm_insertionSort infoLe (api.routes.map routeInfoOf)).length_eq
  simp only [Api.info, h, List.length_map]

/-- Counterexample for C2: two registries holding the same set of
registrations (path `p` under `GET` and under `POST`) in the two possible
iteration orders produce different `info()` lists: the stable sort keeps
the iteration order of the two equal names, so the output is not
determined by the set of registrations alone. -/
theorem info_order_not_determined_by_registrations :
    apiIterationOrderA.routes.Perm apiIterationOrderB.routes
    ∧ apiIterationOrderA.info ≠ apiIterationOrderB.info := by
  constructor
  · exact List.Perm.swap _ _ _
  · intro h
    have hm := congrArg (List.map RouteInfo.method) h
    have hA : apiIterationOrderA.info.map RouteInfo.method = ["GET", "POST"] := rfl
    have hB : apiIterationOrderB.info.map RouteInfo.method = ["POST", "GET"] := rfl
    rw [hA, hB] at hm
    exact absurd hm (by decide)

end Seamless
